import Mathlib

/-!
# rclone-gui-manager: remote-configuration lifecycle, shallow embedding

A shallow embedding of the remote-configuration core of the
`rclone-gui-manager` repository, together with proofs of its specified
properties.

The embedded code:

* `src/plugins/sftp_plugin.py` — `SFTPPlugin.get_config_format`,
  `SFTPPlugin.validate_config`, `SFTPPlugin.test_connection`;
* `src/plugins/plugin_manager.py` — `PluginManager.load_plugins`,
  `PluginManager.get_available_plugins`;
* `src/rclone-gui-manager.py` — `RcloneManager.update_remote_config`,
  `RcloneManager.remove_remote_config`, `RcloneManager.save_remote_config`,
  the `save_remote` closure, `RcloneManager._has_plugin_for_type`,
  `RcloneManager._get_plugin_for_type`.

Modelling conventions:

* A Python `dict[str, str]` is an association list in insertion order whose
  keys are pairwise distinct; theorems that depend on key uniqueness carry a
  `Nodup` hypothesis on the key list.
* The `configparser.ConfigParser` state — and, identically, the persisted
  `rclone.conf` file, since `ConfigParser.write` round-trips the state — is a
  list of sections in order, each section a dict of options.  Option keys
  pass through `optionxform` (lower-casing) on every set/get/remove, exactly
  as configparser does.  The `DEFAULT` section and value interpolation are
  not used by the program and are not modelled.
* GUI concerns (message boxes, windows, tree refresh) are dropped; each
  user decision that a dialog collects (overwrite? save although the probe
  failed?) becomes an explicit boolean argument, and each error dialog
  becomes an outcome constructor.
* Subprocess execution in `test_connection` is an oracle argument
  (`RunOutcome`) saying how `subprocess.run` ended; Python exception flow
  (`try`/`except`/`finally`) is made explicit with an `Except` value and an
  explicit finally step acting on the temp-file state.
-/

set_option autoImplicit false

namespace RGM

/-! ## Python `dict[str, str]` -/

/-- A Python string-to-string dict in insertion order. -/
abbrev Dict := List (String × String)

/-- `d.get(k)` / `d[k]`: the value of the binding of `k`, if any. -/
def dictGet (d : Dict) (k : String) : Option String :=
  (d.find? (fun p => p.1 == k)).map (fun p => p.2)

/-- `k in d`. -/
def hasKey (d : Dict) (k : String) : Bool :=
  d.any (fun p => p.1 == k)

/-- `d[k] = v`: overwrite the existing binding in place, else append. -/
def dictSet (d : Dict) (k v : String) : Dict :=
  if hasKey d k then d.map (fun p => if p.1 == k then (k, v) else p)
  else d ++ [(k, v)]

/-! ## SFTPPlugin.get_config_format (src/plugins/sftp_plugin.py, 130-136) -/

/-- Result of a plugin operation (`PluginResult` in
`src/plugins/plugin_interface.py`; its `data` dict is never consulted by the
code under study and is dropped). -/
structure PluginResult where
  success : Bool
  message : String
deriving Repr, DecidableEq

/-- Loop body of `get_config_format`: `if value: result[key] = value`
(a Python string is truthy iff non-empty). -/
def sftpStep (result : Dict) (kv : String × String) : Dict :=
  if kv.2 ≠ "" then dictSet result kv.1 kv.2 else result

/-- `SFTPPlugin.get_config_format`: start from `{'type': 'sftp'}` and copy
every binding of the input whose value is non-empty. -/
def get_config_format (config : Dict) : Dict :=
  config.foldl sftpStep [("type", "sftp")]

/-! ## Python string helpers -/

/-- Python `str.lower()` (ASCII lowering; every string the program lowers is
ASCII). -/
def pyLower (s : String) : String :=
  ⟨s.data.map Char.toLower⟩

/-- Python `str.strip()`: drop leading and trailing whitespace. -/
def pyStrip (s : String) : String :=
  ⟨((s.data.dropWhile Char.isWhitespace).reverse.dropWhile Char.isWhitespace).reverse⟩

/-- Python `a in b` on strings: `a` occurs in `b` as a contiguous
substring. -/
def pyIn (a b : String) : Bool :=
  b.data.tails.any (fun t => a.data.isPrefixOf t)

/-- Digit run of Python `int(str)`: decimal digits, a single `_` allowed
only between digits.  `acc` is the value read so far, `afterSep` records
that the previous character was `_`. -/
def pyDigitsGo (acc : Nat) (afterSep : Bool) : List Char → Option Nat
  | [] => if afterSep then none else some acc
  | c :: rest =>
    if c.isDigit then pyDigitsGo (10 * acc + (c.toNat - 48)) false rest
    else if c = '_' ∧ afterSep = false then pyDigitsGo acc true rest
    else none

/-- A non-empty digit run. -/
def pyDigits : List Char → Option Nat
  | [] => none
  | c :: rest => if c.isDigit then pyDigitsGo (c.toNat - 48) false rest else none

/-- Python `int(s)` on a string: strip whitespace, optional sign, decimal
digit run.  `none` where Python raises `ValueError` (e.g. `int("")`). -/
def pyInt (s : String) : Option Int :=
  match (pyStrip s).data with
  | '+' :: rest => (pyDigits rest).map (fun n => (n : Int))
  | '-' :: rest => (pyDigits rest).map (fun n => -(n : Int))
  | cs => (pyDigits cs).map (fun n => (n : Int))

/-! ## SFTPPlugin.validate_config (src/plugins/sftp_plugin.py, 74-99) -/

/-- Python `"; ".join(errors)`. -/
def joinErrors : List String → String
  | [] => ""
  | [e] => e
  | e :: rest => e ++ "; " ++ joinErrors rest

/-- The `errors` list built by `SFTPPlugin.validate_config`, in append
order: host, user, then the port check on `config.get('port', '22')`.
`config.get(k)` is falsy iff the key is absent or bound to `""`. -/
def validationErrors (config : Dict) : List String :=
  (if (dictGet config "host").getD "" = "" then ["Host is required"] else [])
  ++ (if (dictGet config "user").getD "" = "" then ["Username is required"] else [])
  ++ (match pyInt ((dictGet config "port").getD "22") with
      | some n => if ¬(1 ≤ n ∧ n ≤ 65535) then ["Port must be between 1 and 65535"] else []
      | none => ["Port must be a number"])

/-- `SFTPPlugin.validate_config`: a non-empty error list fails with the
`"; "`-joined message. -/
def validate_config (config : Dict) : PluginResult :=
  if validationErrors config = [] then ⟨true, "Configuration appears valid"⟩
  else ⟨false, joinErrors (validationErrors config)⟩

/-! ## SFTPPlugin.test_connection (src/plugins/sftp_plugin.py, 101-128) -/

/-- How `subprocess.run(['rclone', 'lsf', ...], timeout=30)` ended: normal
completion with an exit code and stderr text, `TimeoutExpired`, or some
other exception carrying a message. -/
inductive RunOutcome
  | completed (returncode : Int) (stderr : String)
  | timedOut
  | exnRaised (msg : String)
deriving Repr, DecidableEq

/-- A Python exception escaping the `try` body of `test_connection`. -/
inductive PyExn
  | timeoutExpired
  | other (msg : String)
deriving Repr, DecidableEq

/-- Whether the scratch config file written by `tempfile.NamedTemporaryFile`
still exists. -/
structure ProbeState where
  tempFileExists : Bool
deriving Repr, DecidableEq

/-- The `try` body of `test_connection`: run rclone against the scratch
config and branch on `result.returncode == 0`; a timeout or any other
failure of `subprocess.run` raises. -/
def probeBody (outcome : RunOutcome) : Except PyExn PluginResult :=
  match outcome with
  | .completed rc stderr =>
    if rc = 0 then .ok ⟨true, "Connection successful"⟩
    else .ok ⟨false, "Connection failed: " ++ stderr⟩
  | .timedOut => .error .timeoutExpired
  | .exnRaised msg => .error (.other msg)

/-- The two `except` clauses: `subprocess.TimeoutExpired` first, then the
catch-all `except Exception`. -/
def probeHandler : PyExn → PluginResult
  | .timeoutExpired => ⟨false, "Connection test timed out"⟩
  | .other msg => ⟨false, "Connection test failed: " ++ msg⟩

/-- `try`/`except`/`finally`: an exception raised by the body is fed to the
handler and becomes the return value; the `finally` step runs on the state
on every path. -/
def tryExceptFinally {σ : Type} (body : Except PyExn PluginResult)
    (handle : PyExn → PluginResult) (finStep : σ → σ) (s : σ) :
    Except PyExn PluginResult × σ :=
  match body with
  | .ok r => (.ok r, finStep s)
  | .error e => (.ok (handle e), finStep s)

/-- `SFTPPlugin.test_connection`: the scratch config file is written before
the `try` (so it exists on entry) and the `finally` clause `os.unlink`s it.
Writing the scratch file is assumed to succeed (its failure would be an I/O
fault before the probe proper) and `os.unlink` always succeeds on the
existing file. -/
def test_connection (config : Dict) (outcome : RunOutcome) :
    Except PyExn PluginResult × ProbeState :=
  tryExceptFinally (probeBody outcome) probeHandler
    (fun s => { s with tempFileExists := false }) { tempFileExists := true }

/-! ## configparser model -/

/-- A `configparser.ConfigParser` state: sections in file order, each with
its options dict.  `ConfigParser.read` followed by `write` preserves this
data exactly for the files the program produces, so the same value stands
for the persisted file. -/
abbrev ConfigFile := List (String × Dict)

/-- `ConfigParser.optionxform`: option keys are lower-cased on every
set/get/remove. -/
def optionxform (k : String) : String := pyLower k

/-- `name in config` (section lookup; the unused `DEFAULT` section is not
modelled). -/
def hasSection (cfg : ConfigFile) (name : String) : Bool :=
  cfg.any (fun s => s.1 == name)

/-- `config[name]`, as a dict of options. -/
def readSection (cfg : ConfigFile) (name : String) : Option Dict :=
  (cfg.find? (fun s => s.1 == name)).map (fun s => s.2)

/-- `config.remove_section(name)`. -/
def removeSection (cfg : ConfigFile) (name : String) : ConfigFile :=
  cfg.filter (fun s => !(s.1 == name))

/-- `config.add_section(name)`: configparser appends the new section. -/
def addSection (cfg : ConfigFile) (name : String) : ConfigFile :=
  cfg ++ [(name, [])]

/-- `config.set(name, key, value)`: the key passes through `optionxform`. -/
def setOption (cfg : ConfigFile) (name key value : String) : ConfigFile :=
  cfg.map (fun s => if s.1 == name then (s.1, dictSet s.2 (optionxform key) value) else s)

/-- `config.get(name, key)` without fallback. -/
def readOption (cfg : ConfigFile) (name key : String) : Option String :=
  (readSection cfg name).bind (fun d => dictGet d (optionxform key))

/-! ## RcloneManager.update_remote_config (src/rclone-gui-manager.py, 1095-1139) -/

inductive UpdateOutcome
  | noConfigFile
  | notFound
  | updated
deriving Repr, DecidableEq

/-- Body of the loop `for key, value in config_format.items():
if key != 'type': config.set(remote_name, key, str(value))` — note the
case-SENSITIVE comparison against `'type'` before the key is lower-cased by
`config.set`. -/
def setNonTypeOption (name : String) (acc : ConfigFile) (kv : String × String) : ConfigFile :=
  if kv.1 == "type" then acc else setOption acc name kv.1 kv.2

/-- The effect of `setNonTypeOption` on the updated section's own dict
(used to state what the loop does to that section). -/
def setNonTypeStepD (d : Dict) (kv : String × String) : Dict :=
  if kv.1 == "type" then d else dictSet d (optionxform kv.1) kv.2

/-- The first loop of `update_remote_config`:
`for option in config.options(remote_name): if option.lower() != 'type':
config.remove_option(remote_name, option)` — it keeps exactly the options
whose lower-cased stored key is `type`. -/
def clearNonTypeOptions (cfg : ConfigFile) (name : String) : ConfigFile :=
  cfg.map (fun s =>
    if s.1 == name then (s.1, s.2.filter (fun p => pyLower p.1 == "type")) else s)

/-- `RcloneManager.update_remote_config`, GUI dialogs dropped.  A `none`
store is a missing config file.  The source also reads the section's `type`
value into a local it never uses again.  The first loop removes every
option whose lower-cased stored key is not `type`; the second sets every
binding of `plugin.get_config_format(config_data)` except the one keyed
exactly `type`. -/
def update_remote_config (store : Option ConfigFile) (remote_name : String)
    (config_data : Dict) : Option ConfigFile × UpdateOutcome :=
  match store with
  | none => (none, .noConfigFile)
  | some cfg =>
    if hasSection cfg remote_name then
      (some ((get_config_format config_data).foldl (setNonTypeOption remote_name)
        (clearNonTypeOptions cfg remote_name)), .updated)
    else (some cfg, .notFound)

/-! ## RcloneManager.remove_remote_config (src/rclone-gui-manager.py, 1168-1198) -/

inductive RemoveOutcome
  | noConfigFile
  | notFound
  | removed
deriving Repr, DecidableEq

/-- `RcloneManager.remove_remote_config`, GUI dialogs dropped. -/
def remove_remote_config (store : Option ConfigFile) (remote_name : String) :
    Option ConfigFile × RemoveOutcome :=
  match store with
  | none => (none, .noConfigFile)
  | some cfg =>
    if hasSection cfg remote_name then
      (some (removeSection cfg remote_name), .removed)
    else (some cfg, .notFound)

/-! ## save_remote_config and save_remote (src/rclone-gui-manager.py, 2143-2181, 2207-2254) -/

inductive SaveOutcome
  | validationError (msg : String)
  | nameRequired
  | probeDeclined
  | conflictDeclined
  | saved
deriving Repr, DecidableEq

/-- Loop body of `for key, value in config_format.items():
config.set(remote_name, key, str(value))`. -/
def setOptionStep (name : String) (acc : ConfigFile) (kv : String × String) : ConfigFile :=
  setOption acc name kv.1 kv.2

/-- `RcloneManager.save_remote_config`: a missing file means an empty
parser; an existing section asks the user to confirm the overwrite
(`overwrite_ok`) and a decline returns with the file untouched; on
overwrite the old section is removed first; then the section is (re-)added
at the end and every binding of the serialized format is set. -/
def save_remote_config (store : Option ConfigFile) (remote_name : String)
    (config_data : Dict) (overwrite_ok : Bool) : Option ConfigFile × SaveOutcome :=
  let config_format := get_config_format config_data
  let cfg := store.getD []
  if hasSection cfg remote_name then
    if overwrite_ok then
      (some (config_format.foldl (setOptionStep remote_name)
        (addSection (removeSection cfg remote_name) remote_name)), .saved)
    else (store, .conflictDeclined)
  else
    (some (config_format.foldl (setOptionStep remote_name)
      (addSection cfg remote_name)), .saved)

/-- The `save_remote` closure: validate, require a non-empty name, let a
failed probe be overridden by the user (`probe_ok` is the
`test_connection` success, `save_anyway` the user's answer to "save
anyway?"), then persist via `save_remote_config`. -/
def save_remote (store : Option ConfigFile) (remote_name : String) (config_data : Dict)
    (probe_ok save_anyway overwrite_ok : Bool) : Option ConfigFile × SaveOutcome :=
  let validation := validate_config config_data
  if validation.success then
    if remote_name == "" then (store, .nameRequired)
    else if !probe_ok && !save_anyway then (store, .probeDeclined)
    else save_remote_config store remote_name config_data overwrite_ok
  else (store, .validationError validation.message)

/-! ## PluginManager.load_plugins (src/plugins/plugin_manager.py, 24-55) -/

/-- One `*.py` file in the plugins directory: its stem, and the
`RemotePlugin` subclass registered for it — `none` when the module raises
on load or contains no such subclass (the source prints a diagnostic and
moves on). -/
structure PluginFile where
  stem : String
  loads : Option String
deriving Repr, DecidableEq

/-- Registry contents (`self._plugins` / `self._instances`): file stem to
registered plugin class; one instance is created per registered class. -/
abbrev Registry := List (String × String)

/-- Loop body of `load_plugins`: skip `__init__.py` and
`plugin_interface.py`, register the loaded subclass under the file stem. -/
def loadStep (reg : Registry) (f : PluginFile) : Registry :=
  if f.stem == "__init__" || f.stem == "plugin_interface" then reg
  else
    match f.loads with
    | some cls => dictSet reg f.stem cls
    | none => reg

/-- `PluginManager.load_plugins`: the previous registry is discarded
(`self._plugins = {}` and `self._instances = {}`) and the directory is
re-scanned from scratch. -/
def load_plugins (prev : Registry) (files : List PluginFile) : Registry :=
  files.foldl loadStep []

/-- `PluginManager.get_available_plugins`. -/
def get_available_plugins (reg : Registry) : List String :=
  reg.map Prod.fst

/-- A file that `load_plugins` registers. -/
def discoverable (f : PluginFile) : Bool :=
  !(f.stem == "__init__" || f.stem == "plugin_interface") && f.loads.isSome

/-! ## Type matching (src/rclone-gui-manager.py, 719-741 and 792-803) -/

/-- `RcloneManager._has_plugin_for_type` over the registered plugins'
display names: an exact case-insensitive pass, then a containment pass in
both directions (`remote_type.lower() in plugin.get_name().lower() or
plugin.get_name().lower() in remote_type.lower()`). -/
def _has_plugin_for_type (pluginNames : List String) (remote_type : String) : Bool :=
  pluginNames.any (fun n => pyLower n == pyLower remote_type)
  || pluginNames.any (fun n =>
      pyIn (pyLower remote_type) (pyLower n) || pyIn (pyLower n) (pyLower remote_type))

/-- `RcloneManager._get_plugin_for_type`: exact case-insensitive name match
only. -/
def _get_plugin_for_type (pluginNames : List String) (remote_type : String) :
    Option String :=
  pluginNames.find? (fun n => pyLower n == pyLower remote_type)

end RGM

namespace RGM

/-! ## Dict lemmas -/

theorem dictGet_cons_pos {p : String × String} {d : Dict} {k : String} (h : p.1 = k) :
    dictGet (p :: d) k = some p.2 := by
  simp [dictGet, List.find?_cons_of_pos, h]

theorem dictGet_cons_neg {p : String × String} {d : Dict} {k : String} (h : p.1 ≠ k) :
    dictGet (p :: d) k = dictGet d k := by
  simp only [dictGet]
  rw [List.find?_cons_of_neg]
  simp [h]

theorem hasKey_cons (p : String × String) (d : Dict) (k : String) :
    hasKey (p :: d) k = (p.1 == k || hasKey d k) := by
  simp [hasKey]

theorem dictGet_mem {d : Dict} {k v : String} (h : dictGet d k = some v) : (k, v) ∈ d := by
  induction d with
  | nil => simp [dictGet] at h
  | cons p rest ih =>
    obtain ⟨a, b⟩ := p
    by_cases hp : a = k
    · rw [dictGet_cons_pos hp] at h
      rw [List.mem_cons]
      left
      have hb : b = v := by simpa using h
      rw [hp, hb]
    · rw [dictGet_cons_neg hp] at h
      exact List.mem_cons_of_mem _ (ih h)

theorem dictGet_eq_none {d : Dict} {k : String} (h : dictGet d k = none) :
    ∀ p ∈ d, p.1 ≠ k := by
  induction d with
  | nil => intro p hp; simp at hp
  | cons p rest ih =>
    intro q hq
    rw [List.mem_cons] at hq
    by_cases hp : p.1 = k
    · rw [dictGet_cons_pos hp] at h
      exact absurd h (by simp)
    · rw [dictGet_cons_neg hp] at h
      rcases hq with rfl | hq
      · exact hp
      · exact ih h q hq

theorem hasKey_eq_false {d : Dict} {k : String} (h : hasKey d k = false) :
    ∀ p ∈ d, p.1 ≠ k := by
  intro p hp
  simp only [hasKey, List.any_eq_false] at h
  have := h p hp
  simpa using this

theorem hasKey_eq_true_of_mem {d : Dict} {k v : String} (h : (k, v) ∈ d) :
    hasKey d k = true := by
  simp only [hasKey, List.any_eq_true]
  exact ⟨(k, v), h, by simp⟩

/-- A key bound in a dict with pairwise distinct keys has a unique value. -/
theorem value_unique {d : Dict} (hnd : (d.map Prod.fst).Nodup) {k v v' : String}
    (h1 : (k, v) ∈ d) (h2 : (k, v') ∈ d) : v = v' := by
  induction d with
  | nil => simp at h1
  | cons p rest ih =>
    simp only [List.map_cons, List.nodup_cons] at hnd
    rw [List.mem_cons] at h1 h2
    rcases h1 with h1 | h1 <;> rcases h2 with h2 | h2
    · rw [← h1] at h2
      injection h2 with _ h
      exact h.symm
    · exfalso
      apply hnd.1
      rw [← h1]
      simpa using List.mem_map_of_mem Prod.fst h2
    · exfalso
      apply hnd.1
      rw [← h2]
      simpa using List.mem_map_of_mem Prod.fst h1
    · exact ih hnd.2 h1 h2

theorem dictGet_map_update_self (d : Dict) (k v : String) (hk : hasKey d k = true) :
    dictGet (d.map (fun p => if p.1 == k then (k, v) else p)) k = some v := by
  induction d with
  | nil => simp [hasKey] at hk
  | cons p rest ih =>
    simp only [List.map_cons]
    by_cases hp : p.1 = k
    · rw [if_pos (by simp [hp])]
      exact dictGet_cons_pos rfl
    · rw [if_neg (by simp [hp]), dictGet_cons_neg hp]
      apply ih
      rw [hasKey_cons] at hk
      simpa [hp] using hk

theorem dictGet_map_update_ne (d : Dict) {k k' : String} (v : String) (h : k' ≠ k) :
    dictGet (d.map (fun p => if p.1 == k' then (k', v) else p)) k = dictGet d k := by
  induction d with
  | nil => rfl
  | cons p rest ih =>
    simp only [List.map_cons]
    by_cases hp : p.1 = k'
    · rw [if_pos (by simp [hp])]
      rw [dictGet_cons_neg h, dictGet_cons_neg (by rw [hp]; exact h), ih]
    · rw [if_neg (by simp [hp])]
      by_cases hq : p.1 = k
      · rw [dictGet_cons_pos hq, dictGet_cons_pos hq]
      · rw [dictGet_cons_neg hq, dictGet_cons_neg hq, ih]

theorem dictGet_append_single_self (d : Dict) (k v : String) (hk : hasKey d k = false) :
    dictGet (d ++ [(k, v)]) k = some v := by
  induction d with
  | nil =>
    rw [List.nil_append]
    exact dictGet_cons_pos rfl
  | cons p rest ih =>
    rw [hasKey_cons, Bool.or_eq_false_iff] at hk
    have hp : p.1 ≠ k := by simpa using hk.1
    rw [List.cons_append, dictGet_cons_neg hp]
    exact ih hk.2

theorem dictGet_append_single_ne (d : Dict) {k k' : String} (v : String) (h : k' ≠ k) :
    dictGet (d ++ [(k', v)]) k = dictGet d k := by
  induction d with
  | nil =>
    rw [List.nil_append, dictGet_cons_neg h]
  | cons p rest ih =>
    by_cases hq : p.1 = k
    · rw [List.cons_append, dictGet_cons_pos hq, dictGet_cons_pos hq]
    · rw [List.cons_append, dictGet_cons_neg hq, dictGet_cons_neg hq, ih]

theorem dictGet_dictSet_self (d : Dict) (k v : String) :
    dictGet (dictSet d k v) k = some v := by
  unfold dictSet
  by_cases h : hasKey d k = true
  · rw [if_pos h]
    exact dictGet_map_update_self d k v h
  · rw [if_neg h]
    exact dictGet_append_single_self d k v (by simpa using h)

theorem dictGet_dictSet_ne (d : Dict) {k k' : String} (v : String) (h : k' ≠ k) :
    dictGet (dictSet d k' v) k = dictGet d k := by
  unfold dictSet
  by_cases hk : hasKey d k' = true
  · rw [if_pos hk]
    exact dictGet_map_update_ne d v h
  · rw [if_neg hk]
    exact dictGet_append_single_ne d v h

theorem dictGet_dictSet_isSome (d : Dict) (k k' v : String)
    (h : (dictGet d k).isSome = true) : (dictGet (dictSet d k' v) k).isSome = true := by
  by_cases hk : k' = k
  · subst hk
    rw [dictGet_dictSet_self]
    rfl
  · rw [dictGet_dictSet_ne d v hk]
    exact h

/-! ## Lemmas on the get_config_format fold -/

theorem sftpFold_get_congr (config : Dict) (init : Dict) (k : String)
    (h : ∀ p ∈ config, p.1 = k → p.2 = "") :
    dictGet (config.foldl sftpStep init) k = dictGet init k := by
  induction config generalizing init with
  | nil => rfl
  | cons p rest ih =>
    rw [List.foldl_cons]
    rw [ih _ (fun q hq => h q (List.mem_cons_of_mem p hq))]
    unfold sftpStep
    by_cases hv : p.2 = ""
    · simp [hv]
    · rw [if_pos hv]
      rcases eq_or_ne p.1 k with hk | hk
      · exact absurd (h p (List.mem_cons_self p rest) hk) hv
      · exact dictGet_dictSet_ne init p.2 hk

theorem sftpFold_get_of_mem (config : Dict) (init : Dict) (k v : String)
    (hmem : (k, v) ∈ config) (hv : v ≠ "")
    (hnd : (config.map Prod.fst).Nodup) :
    dictGet (config.foldl sftpStep init) k = some v := by
  induction config generalizing init with
  | nil => simp at hmem
  | cons p rest ih =>
    simp only [List.map_cons, List.nodup_cons] at hnd
    rw [List.mem_cons] at hmem
    rw [List.foldl_cons]
    rcases hmem with h1 | h1
    · have hstep : sftpStep init p = dictSet init k v := by
        rw [← h1]
        simp [sftpStep, hv]
      rw [hstep]
      rw [sftpFold_get_congr rest _ k]
      · exact dictGet_dictSet_self init k v
      · intro q hq hqk
        exfalso
        apply hnd.1
        rw [← h1]
        have : q.1 ∈ rest.map Prod.fst := List.mem_map_of_mem Prod.fst hq
        rw [hqk] at this
        simpa using this
    · exact ih _ h1 hnd.2

theorem sftpFold_isSome (config : Dict) (init : Dict) (k : String)
    (h : (dictGet init k).isSome = true) :
    (dictGet (config.foldl sftpStep init) k).isSome = true := by
  induction config generalizing init with
  | nil => exact h
  | cons p rest ih =>
    rw [List.foldl_cons]
    apply ih
    unfold sftpStep
    by_cases hv : p.2 = ""
    · simpa [hv] using h
    · rw [if_pos hv]
      exact dictGet_dictSet_isSome init k p.1 p.2 h

/-! ## C1 -/

/-- C1.  `SFTPPlugin.get_config_format` always emits the key `type`; it
emits every input binding whose value is non-empty, with the value
unchanged; and it emits no input key whose value is empty, other than
`type` itself. -/
theorem get_config_format_contract (config : Dict)
    (hnd : (config.map Prod.fst).Nodup) :
    (dictGet (get_config_format config) "type").isSome = true
    ∧ (∀ k v, (k, v) ∈ config → v ≠ "" → dictGet (get_config_format config) k = some v)
    ∧ (∀ k v, (k, v) ∈ config → v = "" → k ≠ "type" →
        dictGet (get_config_format config) k = none) := by
  unfold get_config_format
  refine ⟨?_, ?_, ?_⟩
  · exact sftpFold_isSome config _ "type" (by decide)
  · intro k v hmem hv
    exact sftpFold_get_of_mem config _ k v hmem hv hnd
  · intro k v hmem hv hk
    have hside : ∀ p ∈ config, p.1 = k → p.2 = "" := by
      intro p hp hpk
      have hpmem : (k, p.2) ∈ config := by
        rw [← hpk]
        simpa using hp
      rw [value_unique hnd hpmem hmem, hv]
    rw [sftpFold_get_congr config _ k hside]
    rw [dictGet_cons_neg (by simpa using Ne.symm hk)]
    rfl

/-- C1 witness: the contract evaluated on a concrete configuration. -/
theorem get_config_format_contract_witness :
    (dictGet (get_config_format [("host", "example.com"), ("user", "bob"), ("port", "")])
        "type").isSome = true
    ∧ dictGet (get_config_format [("host", "example.com"), ("user", "bob"), ("port", "")])
        "host" = some "example.com"
    ∧ dictGet (get_config_format [("host", "example.com"), ("user", "bob"), ("port", "")])
        "port" = none := by
  obtain ⟨h1, h2, h3⟩ := get_config_format_contract
    [("host", "example.com"), ("user", "bob"), ("port", "")] (by decide)
  exact ⟨h1, h2 "host" "example.com" (by decide) (by decide),
    h3 "port" "" (by decide) (by decide) (by decide)⟩

/-! ## C10 -/

/-- C10.  When the input already binds `type` to a non-empty value `v`,
`get_config_format` emits `type = v` (the dict literal `{'type': 'sftp'}`
is overwritten by the copy loop); the injected `sftp` survives exactly when
the input's `type` is absent or empty. -/
theorem get_config_format_type_passthrough (config : Dict)
    (hnd : (config.map Prod.fst).Nodup) :
    (∀ v, dictGet config "type" = some v → v ≠ "" →
      dictGet (get_config_format config) "type" = some v)
    ∧ (dictGet config "type" = none ∨ dictGet config "type" = some "" →
      dictGet (get_config_format config) "type" = some "sftp") := by
  constructor
  · intro v h hv
    unfold get_config_format
    exact sftpFold_get_of_mem config _ "type" v (dictGet_mem h) hv hnd
  · intro h
    unfold get_config_format
    have hside : ∀ p ∈ config, p.1 = "type" → p.2 = "" := by
      intro p hp hpk
      rcases h with h | h
      · exact absurd hpk (dictGet_eq_none h p hp)
      · have hmem : (("type", p.2) : String × String) ∈ config := by
          rw [← hpk]
          simpa using hp
        exact value_unique hnd hmem (dictGet_mem h)
    rw [sftpFold_get_congr config _ "type" hside]
    exact dictGet_cons_pos rfl

/-- C10 witness: a non-empty input `type` wins over the injected `sftp`. -/
theorem get_config_format_type_passthrough_witness :
    dictGet (get_config_format [("type", "ftp"), ("host", "h")]) "type" = some "ftp" :=
  (get_config_format_type_passthrough [("type", "ftp"), ("host", "h")] (by decide)).1
    "ftp" (by decide) (by decide)

/-! ## C5 -/

/-- C5.  `test_connection` returns a `PluginResult` on every execution path
— never a propagated exception — with success exactly on exit code 0
(timeout and failures give a non-ok result), and the scratch config file is
deleted on every exit path. -/
theorem test_connection_total (config : Dict) (outcome : RunOutcome) :
    ∃ r : PluginResult,
      test_connection config outcome = (Except.ok r, { tempFileExists := false })
      ∧ (r.success = true ↔ ∃ stderr, outcome = RunOutcome.completed 0 stderr) := by
  cases outcome with
  | completed rc stderr =>
    by_cases h : rc = 0
    · subst h
      exact ⟨⟨true, "Connection successful"⟩, rfl, by simp⟩
    · refine ⟨⟨false, "Connection failed: " ++ stderr⟩, ?_, ?_⟩
      · simp [test_connection, tryExceptFinally, probeBody, h]
      · simp [h]
  | timedOut => exact ⟨⟨false, "Connection test timed out"⟩, rfl, by simp⟩
  | exnRaised msg => exact ⟨⟨false, "Connection test failed: " ++ msg⟩, rfl, by simp⟩

/-! ## C3 -/

/-- C3.  Saving over an existing remote name with the overwrite declined
fails with the conflict outcome and returns the persisted file exactly as
it was — no section, related or not, is touched. -/
theorem save_remote_config_conflict (cfg : ConfigFile) (remote_name : String)
    (config_data : Dict) (hex : hasSection cfg remote_name = true) :
    save_remote_config (some cfg) remote_name config_data false
      = (some cfg, SaveOutcome.conflictDeclined) := by
  simp [save_remote_config, hex]

/-- C3 witness: declining the overwrite of `x` leaves both sections as they
were. -/
theorem save_remote_config_conflict_witness :
    save_remote_config (some [("x", [("type", "sftp")]), ("y", [("type", "drive")])])
        "x" [("host", "h")] false
      = (some [("x", [("type", "sftp")]), ("y", [("type", "drive")])],
        SaveOutcome.conflictDeclined) :=
  save_remote_config_conflict _ _ _ (by decide)

/-! ## Section-level lemmas -/

theorem readSection_cons_pos {s : String × Dict} {cfg : ConfigFile} {name : String}
    (h : s.1 = name) : readSection (s :: cfg) name = some s.2 := by
  simp [readSection, List.find?_cons_of_pos, h]

theorem readSection_cons_neg {s : String × Dict} {cfg : ConfigFile} {name : String}
    (h : s.1 ≠ name) : readSection (s :: cfg) name = readSection cfg name := by
  simp only [readSection]
  rw [List.find?_cons_of_neg]
  simp [h]

theorem hasSection_cons (s : String × Dict) (cfg : ConfigFile) (name : String) :
    hasSection (s :: cfg) name = (s.1 == name || hasSection cfg name) := by
  simp [hasSection]

theorem hasSection_exists_readSection {cfg : ConfigFile} {name : String}
    (h : hasSection cfg name = true) : ∃ d, readSection cfg name = some d := by
  induction cfg with
  | nil => simp [hasSection] at h
  | cons s rest ih =>
    by_cases hs : s.1 = name
    · exact ⟨s.2, readSection_cons_pos hs⟩
    · rw [hasSection_cons] at h
      rw [readSection_cons_neg hs]
      apply ih
      simpa [hs] using h

theorem readSection_removeSection_self (cfg : ConfigFile) (name : String) :
    readSection (removeSection cfg name) name = none := by
  induction cfg with
  | nil => rfl
  | cons s rest ih =>
    simp only [removeSection, List.filter_cons]
    by_cases h : s.1 = name
    · simpa [h, removeSection] using ih
    · rw [if_pos (by simp [h])]
      rw [readSection_cons_neg h]
      simpa [removeSection] using ih

theorem readSection_removeSection_ne (cfg : ConfigFile) {name other : String}
    (h : other ≠ name) :
    readSection (removeSection cfg name) other = readSection cfg other := by
  induction cfg with
  | nil => rfl
  | cons s rest ih =>
    simp only [removeSection, List.filter_cons]
    by_cases hs : s.1 = name
    · rw [if_neg (by simp [hs])]
      rw [readSection_cons_neg (by rw [hs]; exact Ne.symm h)]
      simpa [removeSection] using ih
    · rw [if_pos (by simp [hs])]
      by_cases ho : s.1 = other
      · rw [readSection_cons_pos ho, readSection_cons_pos ho]
      · rw [readSection_cons_neg ho, readSection_cons_neg ho]
        simpa [removeSection] using ih

/-! ## C4 -/

/-- C4.  Deleting a remote with no section fails with the not-found outcome
and leaves the file unchanged; deleting an existing remote removes exactly
that section and leaves every other section's options untouched. -/
theorem remove_remote_config_contract (cfg : ConfigFile) (remote_name : String) :
    (hasSection cfg remote_name = false →
      remove_remote_config (some cfg) remote_name = (some cfg, RemoveOutcome.notFound))
    ∧ (hasSection cfg remote_name = true →
      ∃ cfg', remove_remote_config (some cfg) remote_name
          = (some cfg', RemoveOutcome.removed)
        ∧ readSection cfg' remote_name = none
        ∧ ∀ other, other ≠ remote_name → readSection cfg' other = readSection cfg other) := by
  constructor
  · intro h
    simp [remove_remote_config, h]
  · intro h
    refine ⟨removeSection cfg remote_name, ?_, readSection_removeSection_self cfg remote_name, ?_⟩
    · simp [remove_remote_config, h]
    · intro other hother
      exact readSection_removeSection_ne cfg hother

/-- C4 witness: both branches at concrete files. -/
theorem remove_remote_config_contract_witness :
    remove_remote_config (some [("a", [("type", "sftp")])]) "b"
      = (some [("a", [("type", "sftp")])], RemoveOutcome.notFound)
    ∧ ∃ cfg', remove_remote_config (some [("a", [("type", "sftp")]), ("b", [("k", "v")])]) "b"
        = (some cfg', RemoveOutcome.removed)
      ∧ readSection cfg' "b" = none
      ∧ readSection cfg' "a" = some [("type", "sftp")] := by
  constructor
  · exact (remove_remote_config_contract [("a", [("type", "sftp")])] "b").1 (by decide)
  · obtain ⟨cfg', h1, h2, h3⟩ :=
      (remove_remote_config_contract [("a", [("type", "sftp")]), ("b", [("k", "v")])] "b").2
        (by decide)
    refine ⟨cfg', h1, h2, ?_⟩
    rw [h3 "a" (by decide)]
    decide

/-! ## C9 -/

/-- C9.  The editability check `_has_plugin_for_type` matches by
case-insensitive equality or containment in either direction, so it reports
a plugin available whenever the lowered remote type equals, occurs inside,
or contains a lowered registered name; and there is a remote type it
accepts for which the edit-time lookup `_get_plugin_for_type`, which
requires exact case-insensitive equality, returns nothing. -/
theorem plugin_type_matching :
    (∀ (pluginNames : List String) (remote_type : String),
      (∃ n ∈ pluginNames, pyLower remote_type = pyLower n
        ∨ pyIn (pyLower remote_type) (pyLower n) = true
        ∨ pyIn (pyLower n) (pyLower remote_type) = true) →
      _has_plugin_for_type pluginNames remote_type = true)
    ∧ ∃ (pluginNames : List String) (remote_type : String),
        _has_plugin_for_type pluginNames remote_type = true
        ∧ _get_plugin_for_type pluginNames remote_type = none := by
  constructor
  · rintro names t ⟨n, hmem, hcase⟩
    unfold _has_plugin_for_type
    rw [Bool.or_eq_true, List.any_eq_true, List.any_eq_true]
    rcases hcase with h | h | h
    · exact Or.inl ⟨n, hmem, by simp [h]⟩
    · exact Or.inr ⟨n, hmem, by simp [h]⟩
    · exact Or.inr ⟨n, hmem, by simp [h]⟩
  · exact ⟨["SFTP"], "sft", by decide, by decide⟩

/-! ## Registry lemmas and C8 -/

theorem hasKey_iff_mem_keys {d : Dict} {k : String} :
    hasKey d k = true ↔ k ∈ d.map Prod.fst := by
  simp only [hasKey, List.any_eq_true, List.mem_map, beq_iff_eq]

theorem dictSet_keys (d : Dict) (k v : String) :
    (dictSet d k v).map Prod.fst
      = if hasKey d k then d.map Prod.fst else d.map Prod.fst ++ [k] := by
  unfold dictSet
  by_cases h : hasKey d k
  · rw [if_pos h, if_pos h, List.map_map]
    apply List.map_congr_left
    intro p _
    by_cases hp : p.1 = k
    · simp [hp]
    · simp [hp]
  · rw [if_neg h, if_neg h, List.map_append]
    rfl

theorem dictSet_keys_nodup {d : Dict} (hnd : (d.map Prod.fst).Nodup) (k v : String) :
    ((dictSet d k v).map Prod.fst).Nodup := by
  rw [dictSet_keys]
  by_cases h : hasKey d k
  · simpa [h]
  · rw [if_neg h]
    rw [List.nodup_append]
    refine ⟨hnd, List.nodup_singleton k, ?_⟩
    intro a ha hak
    have : a = k := by simpa using hak
    subst this
    rw [← hasKey_iff_mem_keys] at ha
    exact absurd ha (by simpa using h)

theorem hasKey_dictSet_iff (d : Dict) (k k' v : String) :
    hasKey (dictSet d k' v) k = true ↔ hasKey d k = true ∨ k = k' := by
  rw [hasKey_iff_mem_keys, hasKey_iff_mem_keys, dictSet_keys]
  by_cases h : hasKey d k'
  · rw [if_pos h]
    constructor
    · exact Or.inl
    · rintro (hk | rfl)
      · exact hk
      · exact hasKey_iff_mem_keys.mp h
  · rw [if_neg h]
    simp

theorem loadFold_key (files : List PluginFile) (reg : Registry) (k : String) :
    hasKey (files.foldl loadStep reg) k = true
      ↔ hasKey reg k = true ∨ ∃ f ∈ files, discoverable f = true ∧ f.stem = k := by
  induction files generalizing reg with
  | nil => simp
  | cons f rest ih =>
    rw [List.foldl_cons, ih]
    have hsplit : ∀ P : Prop,
        (P ∨ ∃ g ∈ f :: rest, discoverable g = true ∧ g.stem = k)
          ↔ (P ∨ (discoverable f = true ∧ f.stem = k)
              ∨ ∃ g ∈ rest, discoverable g = true ∧ g.stem = k) := by
      intro P
      simp only [List.mem_cons]
      constructor
      · rintro (hp | ⟨g, (rfl | hg), hd⟩)
        · exact Or.inl hp
        · exact Or.inr (Or.inl hd)
        · exact Or.inr (Or.inr ⟨g, hg, hd⟩)
      · rintro (hp | hd | ⟨g, hg, hd⟩)
        · exact Or.inl hp
        · exact Or.inr ⟨f, Or.inl rfl, hd⟩
        · exact Or.inr ⟨g, Or.inr hg, hd⟩
    rw [hsplit]
    unfold loadStep discoverable
    by_cases h1 : (f.stem == "__init__" || f.stem == "plugin_interface") = true
    · rw [if_pos h1]
      simp [h1]
    · rw [if_neg h1]
      cases hl : f.loads with
      | none => simp [h1, hl]
      | some cls =>
        rw [hasKey_dictSet_iff]
        simp only [h1, hl, Bool.not_true, Option.isSome_some, Bool.and_true,
          Bool.not_eq_true']
        constructor
        · rintro ((hk | rfl) | hrest)
          · exact Or.inl hk
          · exact Or.inr (Or.inl ⟨by simp_all, rfl⟩)
          · exact Or.inr (Or.inr hrest)
        · rintro (hk | ⟨_, rfl⟩ | hrest)
          · exact Or.inl (Or.inl hk)
          · exact Or.inl (Or.inr rfl)
          · exact Or.inr hrest

theorem loadFold_keys_nodup (files : List PluginFile) (reg : Registry)
    (h : (reg.map Prod.fst).Nodup) :
    ((files.foldl loadStep reg).map Prod.fst).Nodup := by
  induction files generalizing reg with
  | nil => exact h
  | cons f rest ih =>
    rw [List.foldl_cons]
    apply ih
    unfold loadStep
    by_cases h1 : (f.stem == "__init__" || f.stem == "plugin_interface") = true
    · rwa [if_pos h1]
    · rw [if_neg h1]
      cases f.loads with
      | none => exact h
      | some cls => exact dictSet_keys_nodup h _ _

/-- C8.  `load_plugins` resets the registry before scanning, so a second
discovery fully supersedes the first: the result is independent of the
previous registry state, holds exactly one entry per currently discoverable
plugin file with no duplicates, and a file added between two calls appears
alongside every still-present one. -/
theorem load_plugins_idempotent (prev prev' : Registry) (files : List PluginFile) :
    load_plugins prev files = load_plugins prev' files
    ∧ (get_available_plugins (load_plugins prev files)).Nodup
    ∧ (∀ k, k ∈ get_available_plugins (load_plugins prev files)
        ↔ ∃ f ∈ files, discoverable f = true ∧ f.stem = k) := by
  refine ⟨rfl, loadFold_keys_nodup files [] (by simp), ?_⟩
  intro k
  have h := loadFold_key files [] k
  simp only [load_plugins, get_available_plugins]
  rw [← hasKey_iff_mem_keys, h]
  simp [hasKey]

/-! ## Validation lemmas and C6 -/

theorem validate_success_iff (config : Dict) :
    (validate_config config).success = true ↔ validationErrors config = [] := by
  unfold validate_config
  by_cases h : validationErrors config = []
  · simp [h]
  · simp [h]

theorem validationErrors_nil_iff (config : Dict) :
    validationErrors config = [] ↔
      ((dictGet config "host").getD "" ≠ ""
       ∧ (dictGet config "user").getD "" ≠ ""
       ∧ ∃ n, pyInt ((dictGet config "port").getD "22") = some n
           ∧ 1 ≤ n ∧ n ≤ 65535) := by
  unfold validationErrors
  rcases h3 : pyInt ((dictGet config "port").getD "22") with _ | n
  · by_cases h1 : (dictGet config "host").getD "" = "" <;>
      by_cases h2 : (dictGet config "user").getD "" = "" <;>
      simp [h1, h2, h3]
  · by_cases h1 : (dictGet config "host").getD "" = "" <;>
      by_cases h2 : (dictGet config "user").getD "" = "" <;>
      by_cases h4 : 1 ≤ n ∧ n ≤ 65535 <;>
      simp [h1, h2, h3, h4]

/-- C6.  A configuration that `SFTPPlugin.validate_config` accepts is still
accepted after serialization through `get_config_format`: host and user
survive with their non-empty values and the port is either carried over
unchanged or stays absent (so the `'22'` fallback applies again). -/
theorem validate_roundtrip (config : Dict) (hnd : (config.map Prod.fst).Nodup)
    (h : (validate_config config).success = true) :
    (validate_config (get_config_format config)).success = true := by
  rw [validate_success_iff, validationErrors_nil_iff] at h ⊢
  obtain ⟨hhost, huser, n, hport, hn⟩ := h
  refine ⟨?_, ?_, ?_⟩
  · rcases e : dictGet config "host" with _ | v
    · rw [e] at hhost
      simp at hhost
    · rw [e] at hhost
      simp only [Option.getD_some] at hhost
      rw [(get_config_format_contract config hnd).2.1 "host" v (dictGet_mem e) hhost]
      simpa using hhost
  · rcases e : dictGet config "user" with _ | v
    · rw [e] at huser
      simp at huser
    · rw [e] at huser
      simp only [Option.getD_some] at huser
      rw [(get_config_format_contract config hnd).2.1 "user" v (dictGet_mem e) huser]
      simpa using huser
  · rcases e : dictGet config "port" with _ | v
    · have hnone : dictGet (get_config_format config) "port" = none := by
        unfold get_config_format
        rw [sftpFold_get_congr config _ "port"
          (fun p hp hk => absurd hk (dictGet_eq_none e p hp))]
        decide
      rw [e] at hport
      rw [hnone]
      exact ⟨n, hport, hn⟩
    · rw [e] at hport
      simp only [Option.getD_some] at hport
      by_cases hv : v = ""
      · subst hv
        rw [show pyInt "" = none from by decide] at hport
        exact absurd hport (by simp)
      · rw [(get_config_format_contract config hnd).2.1 "port" v (dictGet_mem e) hv]
        simp only [Option.getD_some]
        exact ⟨n, hport, hn⟩

/-- C6 witness: a concrete valid configuration stays valid after
serialization. -/
theorem validate_roundtrip_witness :
    (validate_config (get_config_format [("host", "example.com"), ("user", "bob")])).success
      = true :=
  validate_roundtrip [("host", "example.com"), ("user", "bob")] (by decide) (by decide)

/-! ## C7 -/

theorem joinErrors_head_contains (a : String) (rest : List String) :
    ∃ s t, (joinErrors (a :: rest)).data = s ++ a.data ++ t := by
  cases rest with
  | nil => exact ⟨[], [], by simp [joinErrors]⟩
  | cons b l =>
    refine ⟨[], ("; " ++ joinErrors (b :: l)).data, ?_⟩
    simp [joinErrors, String.data_append]

theorem validationErrors_missing_host (config : Dict)
    (h : (dictGet config "host").getD "" = "") :
    ∃ rest, validationErrors config = "Host is required" :: rest := by
  unfold validationErrors
  rw [if_pos h]
  exact ⟨_, rfl⟩

/-- C7.  Creating an SFTP remote whose configuration lacks `host` fails
validation with a message containing "Host is required" (`"; "`-joined with
any further failure reasons), and the persisted store is returned exactly
as it was — no section is created. -/
theorem save_remote_missing_host (store : Option ConfigFile) (remote_name : String)
    (config_data : Dict) (probe_ok save_anyway overwrite_ok : Bool)
    (hhost : dictGet config_data "host" = none) :
    ∃ msg, save_remote store remote_name config_data probe_ok save_anyway overwrite_ok
        = (store, SaveOutcome.validationError msg)
      ∧ ∃ s t, msg.data = s ++ ("Host is required").data ++ t := by
  obtain ⟨rest, herr⟩ := validationErrors_missing_host config_data (by rw [hhost]; rfl)
  have hfail : validate_config config_data
      = ⟨false, joinErrors (validationErrors config_data)⟩ := by
    unfold validate_config
    rw [if_neg (by rw [herr]; simp)]
  refine ⟨joinErrors (validationErrors config_data), ?_, ?_⟩
  · simp [save_remote, hfail]
  · rw [herr]
    exact joinErrors_head_contains _ rest

/-- C7 witness: `create("SFTP", "x", {user: "bob"})` fails with the host
message and an unchanged (empty) store. -/
theorem save_remote_missing_host_witness :
    ∃ msg, save_remote (some []) "x" [("user", "bob")] true true true
        = (some [], SaveOutcome.validationError msg)
      ∧ ∃ s t, msg.data = s ++ ("Host is required").data ++ t :=
  save_remote_missing_host (some []) "x" [("user", "bob")] true true true (by decide)

/-! ## Update lemmas and C2 -/

theorem readSection_map_modify (cfg : ConfigFile) (name : String) (f : Dict → Dict) :
    readSection (cfg.map (fun s => if s.1 == name then (s.1, f s.2) else s)) name
      = (readSection cfg name).map f := by
  induction cfg with
  | nil => rfl
  | cons s rest ih =>
    rw [List.map_cons]
    by_cases h : s.1 = name
    · rw [if_pos (by simp [h])]
      rw [readSection_cons_pos (show (s.1, f s.2).1 = name from h), readSection_cons_pos h]
      rfl
    · rw [if_neg (by simp [h])]
      rw [readSection_cons_neg h, readSection_cons_neg h, ih]

theorem readSection_map_modify_ne (cfg : ConfigFile) {name other : String}
    (f : Dict → Dict) (h : other ≠ name) :
    readSection (cfg.map (fun s => if s.1 == name then (s.1, f s.2) else s)) other
      = readSection cfg other := by
  induction cfg with
  | nil => rfl
  | cons s rest ih =>
    rw [List.map_cons]
    by_cases hs : s.1 = name
    · rw [if_pos (by simp [hs])]
      rw [readSection_cons_neg (show (s.1, f s.2).1 ≠ other from by
        simpa [hs] using Ne.symm h)]
      rw [readSection_cons_neg (by rw [hs]; exact Ne.symm h), ih]
    · rw [if_neg (by simp [hs])]
      by_cases ho : s.1 = other
      · rw [readSection_cons_pos ho, readSection_cons_pos ho]
      · rw [readSection_cons_neg ho, readSection_cons_neg ho, ih]

theorem readSection_setOption_self (cfg : ConfigFile) (name key value : String) :
    readSection (setOption cfg name key value) name
      = (readSection cfg name).map (fun d => dictSet d (optionxform key) value) := by
  unfold setOption
  exact readSection_map_modify cfg name (fun d => dictSet d (optionxform key) value)

theorem readSection_setOption_ne (cfg : ConfigFile) {name other : String}
    (key value : String) (h : other ≠ name) :
    readSection (setOption cfg name key value) other = readSection cfg other := by
  unfold setOption
  exact readSection_map_modify_ne cfg (fun d => dictSet d (optionxform key) value) h

theorem readSection_clearNonTypeOptions_self (cfg : ConfigFile) (name : String) :
    readSection (clearNonTypeOptions cfg name) name
      = (readSection cfg name).map (fun d => d.filter (fun p => pyLower p.1 == "type")) := by
  unfold clearNonTypeOptions
  exact readSection_map_modify cfg name (fun d => d.filter (fun p => pyLower p.1 == "type"))

theorem readSection_clearNonTypeOptions_ne (cfg : ConfigFile) {name other : String}
    (h : other ≠ name) :
    readSection (clearNonTypeOptions cfg name) other = readSection cfg other := by
  unfold clearNonTypeOptions
  exact readSection_map_modify_ne cfg (fun d => d.filter (fun p => pyLower p.1 == "type")) h

theorem hasSection_of_readSection {cfg : ConfigFile} {name : String} {d : Dict}
    (h : readSection cfg name = some d) : hasSection cfg name = true := by
  induction cfg with
  | nil => simp [readSection] at h
  | cons s rest ih =>
    rw [hasSection_cons]
    by_cases hs : s.1 = name
    · simp [hs]
    · rw [readSection_cons_neg hs] at h
      simp [ih h]

theorem readSection_mem {cfg : ConfigFile} {name : String} {d : Dict}
    (h : readSection cfg name = some d) : ∃ s ∈ cfg, s.1 = name ∧ s.2 = d := by
  induction cfg with
  | nil => simp [readSection] at h
  | cons s rest ih =>
    by_cases hs : s.1 = name
    · rw [readSection_cons_pos hs] at h
      exact ⟨s, List.mem_cons_self s rest, hs, Option.some.inj h⟩
    · rw [readSection_cons_neg hs] at h
      obtain ⟨s', hs', he⟩ := ih h
      exact ⟨s', List.mem_cons_of_mem s hs', he⟩

theorem readSection_setNonTypeFold_self (fmt : Dict) (cfg : ConfigFile) (name : String) :
    readSection (fmt.foldl (setNonTypeOption name) cfg) name
      = (readSection cfg name).map (fun d => fmt.foldl setNonTypeStepD d) := by
  induction fmt generalizing cfg with
  | nil =>
    cases h : readSection cfg name <;> simp [h]
  | cons kv rest ih =>
    rw [List.foldl_cons]
    by_cases hk : kv.1 = "type"
    · rw [show setNonTypeOption name cfg kv = cfg from by
        unfold setNonTypeOption; rw [if_pos (by simp [hk])]]
      rw [ih cfg]
      cases h : readSection cfg name <;>
        simp [h, setNonTypeStepD, hk, List.foldl_cons]
    · rw [show setNonTypeOption name cfg kv = setOption cfg name kv.1 kv.2 from by
        unfold setNonTypeOption; rw [if_neg (by simp [hk])]]
      rw [ih _, readSection_setOption_self]
      cases h : readSection cfg name <;>
        simp [h, setNonTypeStepD, hk, List.foldl_cons]

theorem readSection_setNonTypeFold_ne (fmt : Dict) (cfg : ConfigFile)
    {name other : String} (h : other ≠ name) :
    readSection (fmt.foldl (setNonTypeOption name) cfg) other = readSection cfg other := by
  induction fmt generalizing cfg with
  | nil => rfl
  | cons kv rest ih =>
    rw [List.foldl_cons]
    by_cases hk : kv.1 = "type"
    · rw [show setNonTypeOption name cfg kv = cfg from by
        unfold setNonTypeOption; rw [if_pos (by simp [hk])]]
      exact ih cfg
    · rw [show setNonTypeOption name cfg kv = setOption cfg name kv.1 kv.2 from by
        unfold setNonTypeOption; rw [if_neg (by simp [hk])]]
      rw [ih _, readSection_setOption_ne cfg kv.1 kv.2 h]

theorem setNonTypeFoldD_not_mem (fmt : Dict) (d : Dict) (k : String)
    (h : ∀ kv ∈ fmt, optionxform kv.1 ≠ k) :
    dictGet (fmt.foldl setNonTypeStepD d) k = dictGet d k := by
  induction fmt generalizing d with
  | nil => rfl
  | cons kv rest ih =>
    rw [List.foldl_cons]
    by_cases hk : kv.1 = "type"
    · rw [show setNonTypeStepD d kv = d from by
        unfold setNonTypeStepD; rw [if_pos (by simp [hk])]]
      exact ih _ (fun q hq => h q (List.mem_cons_of_mem kv hq))
    · rw [show setNonTypeStepD d kv = dictSet d (optionxform kv.1) kv.2 from by
        unfold setNonTypeStepD; rw [if_neg (by simp [hk])]]
      rw [ih _ (fun q hq => h q (List.mem_cons_of_mem kv hq))]
      exact dictGet_dictSet_ne d kv.2 (h kv (List.mem_cons_self kv rest))

theorem setNonTypeFoldD_get_type (fmt : Dict) (d : Dict)
    (hlow : ∀ kv ∈ fmt, optionxform kv.1 = kv.1) :
    dictGet (fmt.foldl setNonTypeStepD d) "type" = dictGet d "type" := by
  induction fmt generalizing d with
  | nil => rfl
  | cons kv rest ih =>
    rw [List.foldl_cons]
    by_cases hk : kv.1 = "type"
    · rw [show setNonTypeStepD d kv = d from by
        unfold setNonTypeStepD; rw [if_pos (by simp [hk])]]
      exact ih _ (fun q hq => hlow q (List.mem_cons_of_mem kv hq))
    · rw [show setNonTypeStepD d kv = dictSet d (optionxform kv.1) kv.2 from by
        unfold setNonTypeStepD; rw [if_neg (by simp [hk])]]
      rw [ih _ (fun q hq => hlow q (List.mem_cons_of_mem kv hq))]
      refine dictGet_dictSet_ne d kv.2 ?_
      rw [hlow kv (List.mem_cons_self kv rest)]
      exact hk

theorem setNonTypeFoldD_get_of_mem (fmt : Dict) (d : Dict) (k v : String)
    (hmem : (k, v) ∈ fmt) (hk : k ≠ "type")
    (hnd : (fmt.map Prod.fst).Nodup)
    (hlow : ∀ kv ∈ fmt, optionxform kv.1 = kv.1) :
    dictGet (fmt.foldl setNonTypeStepD d) k = some v := by
  induction fmt generalizing d with
  | nil => simp at hmem
  | cons kv rest ih =>
    simp only [List.map_cons, List.nodup_cons] at hnd
    rw [List.mem_cons] at hmem
    rw [List.foldl_cons]
    rcases hmem with h1 | h1
    · have hkl : optionxform k = k := by
        have := hlow kv (List.mem_cons_self kv rest)
        rw [← h1] at this
        exact this
      have hstep : setNonTypeStepD d kv = dictSet d k v := by
        rw [← h1]
        unfold setNonTypeStepD
        rw [if_neg (by simp [hk]), hkl]
      rw [hstep]
      rw [setNonTypeFoldD_not_mem rest _ k ?hrest]
      · exact dictGet_dictSet_self d k v
      case hrest =>
        intro q hq
        rw [hlow q (List.mem_cons_of_mem kv hq)]
        intro hqe
        apply hnd.1
        rw [← h1]
        have : q.1 ∈ rest.map Prod.fst := List.mem_map_of_mem Prod.fst hq
        rw [hqe] at this
        simpa using this
    · exact ih _ h1 hnd.2 (fun q hq => hlow q (List.mem_cons_of_mem kv hq))

theorem dictGet_filterType_type (d : Dict) :
    dictGet (d.filter (fun p => pyLower p.1 == "type")) "type" = dictGet d "type" := by
  induction d with
  | nil => rfl
  | cons p rest ih =>
    rw [List.filter_cons]
    by_cases hp : p.1 = "type"
    · rw [if_pos (by rw [hp]; decide)]
      rw [dictGet_cons_pos hp, dictGet_cons_pos hp]
    · by_cases hl : pyLower p.1 = "type"
      · rw [if_pos (by simp [hl])]
        rw [dictGet_cons_neg hp, dictGet_cons_neg hp, ih]
      · rw [if_neg (by simp [hl])]
        rw [dictGet_cons_neg hp, ih]

theorem dictGet_filterType_none (d : Dict) {k : String} (hk : pyLower k ≠ "type") :
    dictGet (d.filter (fun p => pyLower p.1 == "type")) k = none := by
  induction d with
  | nil => rfl
  | cons p rest ih =>
    rw [List.filter_cons]
    by_cases hl : pyLower p.1 = "type"
    · rw [if_pos (by simp [hl])]
      rw [dictGet_cons_neg ?hne, ih]
      case hne =>
        intro he
        rw [he] at hl
        exact hk hl
    · rw [if_neg (by simp [hl]), ih]

theorem sftpFold_keys_sub (config : Dict) (init : Dict) {k : String}
    (h : k ∈ ((config.foldl sftpStep init).map Prod.fst)) :
    k ∈ init.map Prod.fst ∨ k ∈ config.map Prod.fst := by
  induction config generalizing init with
  | nil => exact Or.inl h
  | cons p rest ih =>
    rw [List.foldl_cons] at h
    rcases ih _ h with h1 | h1
    · unfold sftpStep at h1
      by_cases hv : p.2 = ""
      · rw [if_neg (by simpa using hv)] at h1
        exact Or.inl h1
      · rw [if_pos hv, dictSet_keys] at h1
        by_cases hkk : hasKey init p.1
        · rw [if_pos hkk] at h1
          exact Or.inl h1
        · rw [if_neg hkk] at h1
          rw [List.mem_append] at h1
          rcases h1 with h1 | h1
          · exact Or.inl h1
          · right
            rw [List.map_cons, List.mem_cons]
            exact Or.inl (by simpa using h1)
    · right
      rw [List.map_cons, List.mem_cons]
      exact Or.inr h1

theorem gcf_keys_lower (config : Dict) (hkeys : ∀ p ∈ config, optionxform p.1 = p.1) :
    ∀ kv ∈ get_config_format config, optionxform kv.1 = kv.1 := by
  intro kv hkv
  have hk : kv.1 ∈ (get_config_format config).map Prod.fst :=
    List.mem_map_of_mem Prod.fst hkv
  unfold get_config_format at hk
  rcases sftpFold_keys_sub config _ hk with h | h
  · have : kv.1 = "type" := by simpa using h
    rw [this]
    decide
  · rw [List.mem_map] at h
    obtain ⟨p, hp, hpe⟩ := h
    rw [← hpe]
    exact hkeys p hp

theorem gcf_keys_nodup (config : Dict) :
    ((get_config_format config).map Prod.fst).Nodup := by
  have hgen : ∀ (l init : Dict), (init.map Prod.fst).Nodup →
      ((l.foldl sftpStep init).map Prod.fst).Nodup := by
    intro l
    induction l with
    | nil => exact fun init h => h
    | cons p rest ih =>
      intro init h
      rw [List.foldl_cons]
      apply ih
      unfold sftpStep
      by_cases hv : p.2 = ""
      · simpa [hv] using h
      · rw [if_pos hv]
        exact dictSet_keys_nodup h _ _
  exact hgen config [("type", "sftp")] (by simp)

theorem hasKey_exists {d : Dict} {k : String} (h : hasKey d k = true) :
    ∃ v, (k, v) ∈ d := by
  simp only [hasKey, List.any_eq_true] at h
  obtain ⟨p, hp, hpk⟩ := h
  have hpk' : p.1 = k := by simpa using hpk
  refine ⟨p.2, ?_⟩
  rw [← hpk']
  simpa using hp

/-- C2 counterexample.  The claim fails as stated: editing the remote `r`
(type `sftp`) with the new field mapping `{"Type": "x"}` — a case-variant
of `type` — changes the stored `type` to `x`, because the set loop compares
the key case-sensitively against `'type'` while `config.set` lower-cases it
onto the existing `type` option. -/
theorem update_remote_config_type_overwritten :
    readOption [("r", [("type", "sftp"), ("host", "h")])] "r" "type" = some "sftp"
    ∧ update_remote_config (some [("r", [("type", "sftp"), ("host", "h")])]) "r"
        [("Type", "x")]
      = (some [("r", [("type", "x")])], UpdateOutcome.updated)
    ∧ readOption [("r", [("type", "x")])] "r" "type" = some "x" := by
  refine ⟨by decide, by decide, by decide⟩

/-- C2 (amended).  For a configparser state (stored option keys are
lower-cased, as configparser guarantees) and a new field mapping with
lower-case keys — every mapping the UI produces; the counterexample shows a
case-variant of `type` breaks the claim — editing an existing remote leaves
the section present, its `type` value unchanged, sets every non-`type` key
of the serialized mapping `get_config_format(config_data)` to its value,
removes every previously stored key that is neither `type` nor a key of the
serialized mapping, and leaves every other section untouched. -/
theorem update_remote_config_edit_contract (cfg : ConfigFile) (remote_name : String)
    (config_data : Dict)
    (hstore : ∀ s ∈ cfg, ∀ p ∈ s.2, optionxform p.1 = p.1)
    (hkeys : ∀ p ∈ config_data, optionxform p.1 = p.1)
    (hex : hasSection cfg remote_name = true) :
    ∃ cfg', update_remote_config (some cfg) remote_name config_data
        = (some cfg', UpdateOutcome.updated)
      ∧ hasSection cfg' remote_name = true
      ∧ readOption cfg' remote_name "type" = readOption cfg remote_name "type"
      ∧ (∀ k v, dictGet (get_config_format config_data) k = some v → k ≠ "type" →
          readOption cfg' remote_name k = some v)
      ∧ (∀ d k, readSection cfg remote_name = some d → hasKey d k = true →
          k ≠ "type" → hasKey (get_config_format config_data) k = false →
          readOption cfg' remote_name k = none)
      ∧ (∀ other, other ≠ remote_name → readSection cfg' other = readSection cfg other) := by
  obtain ⟨d0, hd0⟩ := hasSection_exists_readSection hex
  have hflow : ∀ kv ∈ get_config_format config_data, optionxform kv.1 = kv.1 :=
    gcf_keys_lower config_data hkeys
  have hfnd : ((get_config_format config_data).map Prod.fst).Nodup :=
    gcf_keys_nodup config_data
  have hclr : readSection (clearNonTypeOptions cfg remote_name) remote_name
      = some (d0.filter (fun p => pyLower p.1 == "type")) := by
    rw [readSection_clearNonTypeOptions_self, hd0]
    rfl
  have hsec : readSection ((get_config_format config_data).foldl
        (setNonTypeOption remote_name) (clearNonTypeOptions cfg remote_name)) remote_name
      = some ((get_config_format config_data).foldl setNonTypeStepD
          (d0.filter (fun p => pyLower p.1 == "type"))) := by
    rw [readSection_setNonTypeFold_self, hclr]
    rfl
  refine ⟨(get_config_format config_data).foldl (setNonTypeOption remote_name)
      (clearNonTypeOptions cfg remote_name), ?_, ?_, ?_, ?_, ?_, ?_⟩
  · simp [update_remote_config, hex]
  · exact hasSection_of_readSection hsec
  · unfold readOption
    rw [hsec, hd0]
    simp only [Option.some_bind]
    rw [show optionxform "type" = "type" from by decide]
    rw [setNonTypeFoldD_get_type _ _ hflow, dictGet_filterType_type]
  · intro k v hget hk
    have hkmem := dictGet_mem hget
    have hklow : optionxform k = k := hflow (k, v) hkmem
    unfold readOption
    rw [hsec]
    simp only [Option.some_bind]
    rw [hklow]
    exact setNonTypeFoldD_get_of_mem _ _ k v hkmem hk hfnd hflow
  · intro d k hd hkd hk hnot
    have hdd0 : d = d0 := by
      rw [hd] at hd0
      exact Option.some.inj hd0
    subst hdd0
    obtain ⟨s, hs, hs1, hs2⟩ := readSection_mem hd
    obtain ⟨v, hv⟩ := hasKey_exists hkd
    have hklow : optionxform k = k := by
      have := hstore s hs (k, v) (by rw [hs2]; exact hv)
      simpa using this
    unfold readOption
    rw [hsec]
    simp only [Option.some_bind]
    rw [hklow]
    rw [setNonTypeFoldD_not_mem _ _ k ?hfmt]
    · refine dictGet_filterType_none _ ?_
      show optionxform k ≠ "type"
      rw [hklow]
      exact hk
    case hfmt =>
      intro kv hkv
      rw [hflow kv hkv]
      exact hasKey_eq_false hnot kv hkv
  · intro other ho
    rw [readSection_setNonTypeFold_ne _ _ ho, readSection_clearNonTypeOptions_ne cfg ho]

/-- C2 witness: the amended contract evaluated on a concrete edit — the
stale key `old` disappears, `host` is set, `type` survives. -/
theorem update_remote_config_edit_contract_witness :
    ∃ cfg', update_remote_config (some [("r", [("type", "sftp"), ("old", "1")])]) "r"
        [("host", "h")]
      = (some cfg', UpdateOutcome.updated)
      ∧ hasSection cfg' "r" = true
      ∧ readOption cfg' "r" "type"
        = readOption [("r", [("type", "sftp"), ("old", "1")])] "r" "type"
      ∧ (∀ k v, dictGet (get_config_format [("host", "h")]) k = some v → k ≠ "type" →
          readOption cfg' "r" k = some v)
      ∧ (∀ d k, readSection [("r", [("type", "sftp"), ("old", "1")])] "r" = some d →
          hasKey d k = true → k ≠ "type" →
          hasKey (get_config_format [("host", "h")]) k = false →
          readOption cfg' "r" k = none)
      ∧ (∀ other, other ≠ "r" →
          readSection cfg' other = readSection [("r", [("type", "sftp"), ("old", "1")])] other) :=
  update_remote_config_edit_contract [("r", [("type", "sftp"), ("old", "1")])] "r"
    [("host", "h")] (by decide) (by decide) (by decide)

end RGM
